import Mathlib

/-!
Verification of the daml-sast static analyser against its specification.

This file gives a shallow embedding of the parts of the code base that the
checked claims are about:

* `src/daml_sast/ir/model.py` — the IR data model (`Expr`, `Location`, …);
* `src/daml_sast/analysis/party.py` — the `PartySet` abstract domain and
  `infer_party_set`;
* `src/daml_sast/rules/examples.py` — the `DAML-AUTH-001` rule;
* `src/daml_sast/util/fingerprint.py` — `compute_fingerprint`;
* `src/daml_sast/engine/runner.py` — finding finalization in `run`;
* `src/daml_sast/lf/resolve.py` — `fqn_with_package`;
* `src/daml_sast/ir/lower.py` — list flattening in expression lowering;
* `src/daml_sast/lf/decoder.py` and `src/daml_sast/lf/compat.py` — the
  archive decoding pipeline.

Python `set[str]` values are modelled as `List String` with union as
concatenation and subset as pointwise membership; Python `dict` environments
are modelled as association lists where an update prepends (lookup takes the
first hit, so a prepended entry shadows older ones exactly as a dict update
overwrites).  Python byte strings are modelled as `List Nat`.  Opaque
third-party operations (protobuf parsing, SHA-256) are parameters of the
embedding, never stubs of repository code.
-/

/-- Python value attached to an `Expr` node (`Expr.value: Any`).  The analyses
under verification only ever test whether the value is a string
(`isinstance(expr.value, str)`); every other payload is collapsed into
`other`. -/
inductive Val where
  | str (s : String)
  | other
deriving DecidableEq, Repr

/-- Source span, from `SourceSpan` in `src/daml_sast/ir/model.py` (all fields
optional). -/
structure SourceSpan where
  file : Option String := none
  start_line : Option Int := none
  start_col : Option Int := none
  end_line : Option Int := none
  end_col : Option Int := none
deriving DecidableEq, Repr

/-- Source location, from `Location` in `src/daml_sast/ir/model.py`. -/
structure Location where
  module : String
  definition : String
  span : Option SourceSpan := none
deriving DecidableEq, Repr

/-- IR type, from `Type` in `src/daml_sast/ir/model.py` (named `IrType`
because `Type` is reserved in Lean). -/
inductive IrType where
  | mk (kind : String) (name : Option String) (args : List IrType)
deriving Repr

/-- IR expression, from `Expr` in `src/daml_sast/ir/model.py`:
`kind`, `value`, `children`, `location`, `typ`, `lf_ref`. -/
inductive Expr where
  | mk (kind : String) (value : Option Val) (children : List Expr)
       (location : Option Location) (typ : Option IrType)
       (lf_ref : Option String)
deriving Repr

def Expr.kind : Expr → String
  | .mk k _ _ _ _ _ => k

def Expr.value : Expr → Option Val
  | .mk _ v _ _ _ _ => v

def Expr.children : Expr → List Expr
  | .mk _ _ cs _ _ _ => cs

def Expr.location : Expr → Option Location
  | .mk _ _ _ loc _ _ => loc

def Expr.lf_ref : Expr → Option String
  | .mk _ _ _ _ _ r => r

/-- Party set abstract domain, from `PartySet` in
`src/daml_sast/analysis/party.py`.  The Python `known: set[str]` is modelled
as a `List String`: union is concatenation and the subset test is pointwise
membership, which matches the set semantics used by the code. -/
structure PartySet where
  known : List String
  unknown : Bool
deriving DecidableEq, Repr

/-- Bottom element `PartySet()` (empty known set, not unknown). -/
def PartySet.bot : PartySet := ⟨[], false⟩

/-- Classmethod `PartySet.unknown_set()`. -/
def PartySet.unknown_set : PartySet := ⟨[], true⟩

/-- Method `PartySet.union`: known sets are unioned, unknown flags or-ed. -/
def PartySet.union (a b : PartySet) : PartySet :=
  ⟨a.known ++ b.known, a.unknown || b.unknown⟩

/-- Python `a.known.issubset(b.known)` on the list model of sets. -/
def PartySet.known_issubset (a b : PartySet) : Bool :=
  a.known.all (fun x => x ∈ b.known)

/-- Method `PartySet.is_definitely_subset_of`. -/
def PartySet.is_definitely_subset_of (a b : PartySet) : Bool :=
  if a.unknown || b.unknown then false else a.known_issubset b

/-- Method `PartySet.is_definitely_not_subset_of`. -/
def PartySet.is_definitely_not_subset_of (a b : PartySet) : Bool :=
  if a.unknown || b.unknown then false else !(a.known_issubset b)

/-- Environment `dict[str, PartySet]`, modelled as an association list: a
dict update `env[name] = ps` becomes prepending `(name, ps)` and `env.get`
becomes `List.lookup` (first hit wins, i.e. the latest update). -/
abbrev PartyEnv := List (String × PartySet)

/-- Branch of `infer_party_set` for a node of kind `"party"`: a string
value yields the singleton known set, anything else falls through to the
unknown set. -/
def party_branch (v : Option Val) : PartySet :=
  match v with
  | some (.str s) => ⟨[s], false⟩
  | _ => PartySet.unknown_set

/-- Branch of `infer_party_set` for a node of kind `"var"`: a string value
is looked up in the environment (`env.get`), defaulting to the unknown set;
anything else falls through to the unknown set. -/
def var_branch (v : Option Val) (env : PartyEnv) : PartySet :=
  match v with
  | some (.str s) => (env.lookup s).getD PartySet.unknown_set
  | _ => PartySet.unknown_set

mutual

/-- Function `infer_party_set` from `src/daml_sast/analysis/party.py`.
The Python `for` loops over child lists become the mutually recursive
helpers below: `inferSC` is the short-circuiting union loop of the
`"list"` and `"case"` branches (via `caseGo`), `inferAll` the plain union
loop of the `"cons"` branch (via `consGo`, which also handles the
empty-children guard), and `letGo` walks the children of a `"let"` node,
treating every child but the last as a binding
(`*bindings, body = expr.children`) and the last as the body. -/
def infer_party_set : Expr → PartyEnv → PartySet
  | .mk k v cs _ _ _, env =>
    if k = "party" then party_branch v
    else if k = "list" then inferSC cs env PartySet.bot
    else if k = "cons" then consGo cs env
    else if k = "var" then var_branch v env
    else if k = "let" then letGo cs env
    else if k = "case" then caseGo cs env
    else PartySet.unknown_set

/-- Branch for kind `"cons"`: no children yields the unknown set, otherwise
all children (heads and tail alike) are unioned. -/
def consGo : List Expr → PartyEnv → PartySet
  | [], _ => PartySet.unknown_set
  | c :: cs, env => inferAll (c :: cs) env PartySet.bot

/-- Branch for kind `"case"`: fewer than two children yields the unknown
set, otherwise the alternatives (all children but the first) are unioned
with short-circuit. -/
def caseGo : List Expr → PartyEnv → PartySet
  | _scrut :: alt :: alts, env => inferSC (alt :: alts) env PartySet.bot
  | _, _ => PartySet.unknown_set

/-- Accumulator loop of the `"list"` and `"case"` branches of
`infer_party_set`: union the children left to right and return as soon as
the accumulator becomes unknown. -/
def inferSC : List Expr → PartyEnv → PartySet → PartySet
  | [], _, acc => acc
  | c :: cs, env, acc =>
    let acc2 := acc.union (infer_party_set c env)
    if acc2.unknown then acc2 else inferSC cs env acc2

/-- Accumulator loop of the `"cons"` branch of `infer_party_set`: union all
children left to right (heads then tail), with no short-circuit. -/
def inferAll : List Expr → PartyEnv → PartySet → PartySet
  | [], _, acc => acc
  | c :: cs, env, acc => inferAll cs env (acc.union (infer_party_set c env))

/-- Loop over the children of a `"let"` node: all children but the last are
binding candidates, the last child is the body.  A binding candidate whose
kind is not `"binding"`, whose children are empty, or whose value is not a
string is skipped (`continue`) without touching the environment. -/
def letGo : List Expr → PartyEnv → PartySet
  | [], _ => PartySet.unknown_set
  | [body], env => infer_party_set body env
  | b :: rest, env =>
    match b with
    | .mk bk bv bcs _ _ _ =>
      if bk = "binding" then
        match bv, bcs with
        | some (.str name), bound :: _ =>
          letGo rest ((name, infer_party_set bound env) :: env)
        | _, _ => letGo rest env
      else letGo rest env

end

/-! Reference recursion of spec §4.5, written from the spec's words.  The
rules are: `party(literal)` yields the singleton known set; `list(e1..en)`
unions the children, short-circuiting as soon as the union turns unknown;
`cons(h1..hk, tail)` unions all heads and the tail; `var(x)` looks the name
up in the environment (unknown if unbound); `let(bindings, body)` recurses
into the body with the environment extended left-to-right by each binding's
inferred set (a child that is not a well-formed binding contributes no
binding); `case(scrut, alt1..altn)` unions the alternatives, ignoring the
scrutinee, short-circuiting on unknown; anything else is unknown. -/

/-- Spec rule `union; short-circuit on unknown` for a list of children,
given the inference function for a single child. -/
def spec_union_sc (f : Expr → PartySet) : List Expr → PartySet
  | [] => PartySet.bot
  | c :: cs =>
    let p := f c
    if p.unknown then p else p.union (spec_union_sc f cs)

/-- Spec rule `union of all heads and tail` for the children of a `cons`
node: plain union, no short-circuit. -/
def spec_union_all (f : Expr → PartySet) : List Expr → PartySet
  | [] => PartySet.bot
  | c :: cs => (f c).union (spec_union_all f cs)

/-- Spec rule for one `let` binding: extend the environment by the binding's
inferred set; a child that is not a well-formed binding (wrong kind, no
children, or a non-string bound name) contributes no binding. -/
def spec_bind (f : Expr → PartyEnv → PartySet) (b : Expr) (env : PartyEnv) :
    PartyEnv :=
  match b with
  | .mk bk bv bcs _ _ _ =>
    if bk = "binding" then
      match bv, bcs with
      | some (.str name), bound :: _ => (name, f bound env) :: env
      | _, _ => env
    else env

/-- Spec rule `let(bindings, body)`: recurse into the body with the
environment extended left-to-right by each binding's inferred set.  On the
shapes the spec rules do not cover (a `let` with no children) the result is
the unknown set. -/
def spec_let (f : Expr → PartyEnv → PartySet) : List Expr → PartyEnv → PartySet
  | [], _ => PartySet.unknown_set
  | [body], env => f body env
  | b :: rest, env => spec_let f rest (spec_bind f b env)

theorem PartySet.union_bot_right (a : PartySet) : a.union PartySet.bot = a := by
  simp [PartySet.union, PartySet.bot]

theorem PartySet.bot_union (a : PartySet) : PartySet.bot.union a = a := rfl

theorem PartySet.union_assoc (a b c : PartySet) :
    (a.union b).union c = a.union (b.union c) := by
  simp [PartySet.union, Bool.or_assoc]

theorem PartySet.union_unknown (a b : PartySet) :
    (a.union b).unknown = (a.unknown || b.unknown) := rfl

/-- Single-step unfolding of `infer_party_set` into its kind dispatch. -/
theorem infer_party_set_mk (k : String) (v : Option Val) (cs : List Expr)
    (loc : Option Location) (ty : Option IrType) (ref : Option String)
    (env : PartyEnv) :
    infer_party_set (.mk k v cs loc ty ref) env =
      (if k = "party" then party_branch v
       else if k = "list" then inferSC cs env PartySet.bot
       else if k = "cons" then consGo cs env
       else if k = "var" then var_branch v env
       else if k = "let" then letGo cs env
       else if k = "case" then caseGo cs env
       else PartySet.unknown_set) := by
  rw [infer_party_set.eq_def]

theorem infer_kind_party (v : Option Val) (cs : List Expr)
    (loc : Option Location) (ty : Option IrType) (ref : Option String)
    (env : PartyEnv) :
    infer_party_set (.mk "party" v cs loc ty ref) env = party_branch v := by
  rw [infer_party_set_mk]
  rfl

theorem infer_kind_list (v : Option Val) (cs : List Expr)
    (loc : Option Location) (ty : Option IrType) (ref : Option String)
    (env : PartyEnv) :
    infer_party_set (.mk "list" v cs loc ty ref) env
      = inferSC cs env PartySet.bot := by
  rw [infer_party_set_mk]
  rfl

theorem infer_kind_cons (v : Option Val) (cs : List Expr)
    (loc : Option Location) (ty : Option IrType) (ref : Option String)
    (env : PartyEnv) :
    infer_party_set (.mk "cons" v cs loc ty ref) env = consGo cs env := by
  rw [infer_party_set_mk]
  rfl

theorem infer_kind_var (v : Option Val) (cs : List Expr)
    (loc : Option Location) (ty : Option IrType) (ref : Option String)
    (env : PartyEnv) :
    infer_party_set (.mk "var" v cs loc ty ref) env = var_branch v env := by
  rw [infer_party_set_mk]
  rfl

theorem infer_kind_let (v : Option Val) (cs : List Expr)
    (loc : Option Location) (ty : Option IrType) (ref : Option String)
    (env : PartyEnv) :
    infer_party_set (.mk "let" v cs loc ty ref) env = letGo cs env := by
  rw [infer_party_set_mk]
  rfl

theorem infer_kind_case (v : Option Val) (cs : List Expr)
    (loc : Option Location) (ty : Option IrType) (ref : Option String)
    (env : PartyEnv) :
    infer_party_set (.mk "case" v cs loc ty ref) env = caseGo cs env := by
  rw [infer_party_set_mk]
  rfl

theorem infer_kind_other (k : String) (v : Option Val) (cs : List Expr)
    (loc : Option Location) (ty : Option IrType) (ref : Option String)
    (env : PartyEnv) (h1 : k ≠ "party") (h2 : k ≠ "list") (h3 : k ≠ "cons")
    (h4 : k ≠ "var") (h5 : k ≠ "let") (h6 : k ≠ "case") :
    infer_party_set (.mk k v cs loc ty ref) env = PartySet.unknown_set := by
  rw [infer_party_set_mk, if_neg h1, if_neg h2, if_neg h3, if_neg h4,
    if_neg h5, if_neg h6]

/-- Relates the accumulator loop of the code to the spec's short-circuiting
union, provided the accumulator is not yet unknown. -/
theorem inferSC_eq (cs : List Expr) (env : PartyEnv) (acc : PartySet)
    (h : acc.unknown = false) :
    inferSC cs env acc
      = acc.union (spec_union_sc (fun c => infer_party_set c env) cs) := by
  induction cs generalizing acc with
  | nil => simp [inferSC, spec_union_sc, PartySet.union_bot_right]
  | cons c cs ih =>
    simp only [inferSC, spec_union_sc]
    by_cases hp : (infer_party_set c env).unknown
    · simp [PartySet.union_unknown, h, hp]
    · simp only [PartySet.union_unknown, h, hp, Bool.false_or, if_neg,
        Bool.false_eq_true, not_false_eq_true]
      rw [ih _ (by simp [PartySet.union_unknown, h, hp])]
      rw [PartySet.union_assoc]

/-- Relates the plain accumulator loop of the `cons` branch to the spec's
union of all children. -/
theorem inferAll_eq (cs : List Expr) (env : PartyEnv) (acc : PartySet) :
    inferAll cs env acc
      = acc.union (spec_union_all (fun c => infer_party_set c env) cs) := by
  induction cs generalizing acc with
  | nil => simp [inferAll, spec_union_all, PartySet.union_bot_right]
  | cons c cs ih =>
    simp only [inferAll, spec_union_all]
    rw [ih, PartySet.union_assoc]

/-- Relates the `let` loop of the code to the spec's left-to-right
environment extension. -/
theorem letGo_eq (cs : List Expr) (env : PartyEnv) :
    letGo cs env = spec_let infer_party_set cs env := by
  induction cs generalizing env with
  | nil => simp [letGo, spec_let]
  | cons b tl ih =>
    cases tl with
    | nil => simp [letGo, spec_let]
    | cons c rest =>
      cases b with
      | mk bk bv bcs bloc bty bref =>
        by_cases hk : bk = "binding" <;>
          rcases bv with _ | ⟨s | _⟩ <;>
          rcases bcs with _ | ⟨bound, brest⟩ <;>
          simp [letGo, spec_let, spec_bind, hk, ih]

/-- C2: `infer_party_set` satisfies the reference recursion of §4.5: a party
literal yields the singleton known set; a list node yields the
(short-circuiting) union of its children; a cons node yields the union of
all heads and the tail; a var node yields the environment's binding or
unknown if unbound; a let node recurses into the body with the environment
extended left-to-right by each binding's inferred set; a case node yields
the union over its alternatives, ignoring the scrutinee; every other kind
yields the unknown set. -/
theorem infer_party_set_matches_spec_recursion :
    (∀ s cs loc ty ref env,
      infer_party_set (.mk "party" (some (.str s)) cs loc ty ref) env
        = ⟨[s], false⟩)
  ∧ (∀ v cs loc ty ref env,
      infer_party_set (.mk "list" v cs loc ty ref) env
        = spec_union_sc (fun c => infer_party_set c env) cs)
  ∧ (∀ v c cs loc ty ref env,
      infer_party_set (.mk "cons" v (c :: cs) loc ty ref) env
        = spec_union_all (fun e => infer_party_set e env) (c :: cs))
  ∧ (∀ s cs loc ty ref env,
      infer_party_set (.mk "var" (some (.str s)) cs loc ty ref) env
        = (env.lookup s).getD PartySet.unknown_set)
  ∧ (∀ v cs loc ty ref env,
      infer_party_set (.mk "let" v cs loc ty ref) env
        = spec_let infer_party_set cs env)
  ∧ (∀ v scrut alt alts loc ty ref env,
      infer_party_set (.mk "case" v (scrut :: alt :: alts) loc ty ref) env
        = spec_union_sc (fun e => infer_party_set e env) (alt :: alts))
  ∧ (∀ k v cs loc ty ref env, k ≠ "party" → k ≠ "list" → k ≠ "cons" →
      k ≠ "var" → k ≠ "let" → k ≠ "case" →
      infer_party_set (.mk k v cs loc ty ref) env = PartySet.unknown_set) := by
  refine ⟨?_, ?_, ?_, ?_, ?_, ?_, ?_⟩
  · intro s cs loc ty ref env
    rw [infer_kind_party]
    rfl
  · intro v cs loc ty ref env
    rw [infer_kind_list, inferSC_eq _ _ _ rfl, PartySet.bot_union]
  · intro v c cs loc ty ref env
    rw [infer_kind_cons]
    simp only [consGo]
    rw [inferAll_eq, PartySet.bot_union]
  · intro s cs loc ty ref env
    rw [infer_kind_var]
    rfl
  · intro v cs loc ty ref env
    rw [infer_kind_let]
    exact letGo_eq cs env
  · intro v scrut alt alts loc ty ref env
    rw [infer_kind_case]
    simp only [caseGo]
    rw [inferSC_eq _ _ _ rfl, PartySet.bot_union]
  · intro k v cs loc ty ref env h1 h2 h3 h4 h5 h6
    exact infer_kind_other k v cs loc ty ref env h1 h2 h3 h4 h5 h6

/-- Witness for C2: the default rule applied at a concrete uncovered kind. -/
theorem infer_party_set_matches_spec_recursion_witness :
    infer_party_set (.mk "update" none [] none none none) []
      = PartySet.unknown_set :=
  infer_party_set_matches_spec_recursion.2.2.2.2.2.2 "update" none [] none none
    none [] (by decide) (by decide) (by decide) (by decide) (by decide)
    (by decide)

/-- C3: party-set monotonicity.  `union(a,b)` contains `a` and `b` in both
`known` and `unknown`; `union(a, ⊥) = a`; if either side is unknown, both
subset predicates return false. -/
theorem partyset_union_monotone_and_guards :
    (∀ a b : PartySet,
        (∀ x, x ∈ a.known → x ∈ (a.union b).known)
      ∧ (∀ x, x ∈ b.known → x ∈ (a.union b).known)
      ∧ (a.unknown = true → (a.union b).unknown = true)
      ∧ (b.unknown = true → (a.union b).unknown = true))
  ∧ (∀ a : PartySet, a.union PartySet.bot = a)
  ∧ (∀ a b : PartySet, (a.unknown = true ∨ b.unknown = true) →
      a.is_definitely_subset_of b = false
      ∧ a.is_definitely_not_subset_of b = false) := by
  refine ⟨fun a b => ⟨?_, ?_, ?_, ?_⟩, PartySet.union_bot_right, ?_⟩
  · intro x hx
    simp [PartySet.union, hx]
  · intro x hx
    simp [PartySet.union, hx]
  · intro h
    simp [PartySet.union, h]
  · intro h
    simp [PartySet.union, h]
  · intro a b h
    rcases h with h | h <;>
      simp [PartySet.is_definitely_subset_of,
        PartySet.is_definitely_not_subset_of, h]

/-- Witness for C3: the guard clause at a concrete unknown left operand. -/
theorem partyset_union_monotone_and_guards_witness :
    (PartySet.mk [] true).is_definitely_subset_of ⟨["A"], false⟩ = false
    ∧ (PartySet.mk [] true).is_definitely_not_subset_of ⟨["A"], false⟩
        = false :=
  partyset_union_monotone_and_guards.2.2 ⟨[], true⟩ ⟨["A"], false⟩ (Or.inl rfl)

/-- C10: `infer_party_set` on degenerate node shapes: a `cons` with no
children, a `let` with no children, and a `case` with fewer than two
children all yield the unknown set; inside a `let`, a child that is not a
well-formed binding is skipped without affecting the environment. -/
theorem infer_party_set_degenerate_shapes :
    (∀ v loc ty ref env,
      infer_party_set (.mk "cons" v [] loc ty ref) env = PartySet.unknown_set)
  ∧ (∀ v loc ty ref env,
      infer_party_set (.mk "let" v [] loc ty ref) env = PartySet.unknown_set)
  ∧ (∀ v loc ty ref env,
      infer_party_set (.mk "case" v [] loc ty ref) env = PartySet.unknown_set)
  ∧ (∀ v scrut loc ty ref env,
      infer_party_set (.mk "case" v [scrut] loc ty ref) env
        = PartySet.unknown_set)
  ∧ (∀ b rest v loc ty ref env, rest ≠ [] →
      (b.kind ≠ "binding" ∨ b.children = [] ∨ ∀ s, b.value ≠ some (.str s)) →
      infer_party_set (.mk "let" v (b :: rest) loc ty ref) env
        = infer_party_set (.mk "let" v rest loc ty ref) env) := by
  refine ⟨?_, ?_, ?_, ?_, ?_⟩
  · intro v loc ty ref env
    rw [infer_kind_cons]
    simp [consGo]
  · intro v loc ty ref env
    rw [infer_kind_let]
    simp [letGo]
  · intro v loc ty ref env
    rw [infer_kind_case]
    simp [caseGo]
  · intro v scrut loc ty ref env
    rw [infer_kind_case]
    simp [caseGo]
  intro b rest v loc ty ref env hne hbad
  rw [infer_kind_let, infer_kind_let]
  cases rest with
  | nil => exact absurd rfl hne
  | cons c rest2 =>
    cases b with
    | mk bk bv bcs bloc bty bref =>
      simp only [Expr.kind, Expr.children, Expr.value] at hbad
      by_cases hk : bk = "binding"
      · subst hk
        rcases hbad with h | h | h
        · exact absurd rfl h
        · subst h
          rcases bv with _ | ⟨s | _⟩ <;> simp [letGo]
        · rcases bv with _ | ⟨s | _⟩
          · rcases bcs with _ | ⟨bound, brest⟩ <;> simp [letGo]
          · exact absurd rfl (h s)
          · rcases bcs with _ | ⟨bound, brest⟩ <;> simp [letGo]
      · rw [letGo.eq_def]
        simp [hk]

/-- Witness for C10: a malformed binding child (empty children, non-string
name) in a two-child `let` is skipped. -/
theorem infer_party_set_degenerate_shapes_witness :
    infer_party_set
        (.mk "let" none
          [.mk "binding" none [] none none none,
           .mk "party" (some (.str "A")) [] none none none] none none none) []
      = infer_party_set
          (.mk "let" none [.mk "party" (some (.str "A")) [] none none none]
            none none none) [] :=
  infer_party_set_degenerate_shapes.2.2.2.2
    (.mk "binding" none [] none none none)
    [.mk "party" (some (.str "A")) [] none none none] none none none none []
    (List.cons_ne_nil _ _) (Or.inr (Or.inl rfl))

/-- Severity levels, from `Severity` in `src/daml_sast/model.py`. -/
inductive Severity where
  | LOW
  | MEDIUM
  | HIGH
  | CRITICAL
deriving DecidableEq, Repr

/-- Confidence levels, from `Confidence` in `src/daml_sast/model.py`. -/
inductive Confidence where
  | LOW
  | MEDIUM
  | HIGH
deriving DecidableEq, Repr

/-- Evidence record, from `Evidence` in `src/daml_sast/model.py`. -/
structure Evidence where
  kind : String
  note : String
  lf_ref : Option String := none
deriving DecidableEq, Repr

/-- Finding record, from `Finding` in `src/daml_sast/model.py`.  The Python
`metadata: dict[str, str]` is modelled as an association list with unique
keys (first hit wins on lookup); the optional `fingerprint: str | None` is
an `Option String`. -/
structure Finding where
  id : String
  title : String
  severity : Severity
  confidence : Confidence
  category : String
  message : String
  location : Location
  evidence : List Evidence := []
  related : List Location := []
  metadata : List (String × String) := []
  fingerprint : Option String := none
deriving DecidableEq, Repr

/-- Rule context, from `Ctx` in `src/daml_sast/rules/base.py`. -/
structure Ctx where
  package_id : String
  module_name : String
  template_name : Option String := none
  choice_name : Option String := none
  path : List String := []
deriving DecidableEq, Repr

/-- Template key, from `TemplateKey` in `src/daml_sast/ir/model.py`. -/
structure TemplateKey where
  typ : IrType
  body : Expr
  maintainers : Expr
  location : Option Location := none
  lf_ref : Option String := none

/-- Choice, from `Choice` in `src/daml_sast/ir/model.py`. -/
structure Choice where
  name : String
  consuming : Bool
  controllers : Expr
  observers : Option Expr := none
  authorizers : Option Expr := none
  return_type : Option IrType := none
  update : Expr
  location : Option Location := none
  lf_ref : Option String := none

/-- Template, from `Template` in `src/daml_sast/ir/model.py`. -/
structure Template where
  name : String
  params : List String := []
  signatories : Expr
  observers : Expr
  key : Option TemplateKey := none
  choices : List Choice := []
  precond : Option Expr := none
  location : Option Location := none
  lf_ref : Option String := none

/-- Helper `_location_from` in `src/daml_sast/rules/examples.py`: use the
expression's own location when present, else fall back to the context's
module name (`ctx.module_name or "<unknown>"`, where the empty string is
falsy) and the default definition label. -/
def location_from (e : Option Expr) (ctx : Ctx) (default_def : String) :
    Location :=
  match e with
  | some ex =>
    match ex.location with
    | some loc => loc
    | none =>
      ⟨if ctx.module_name = "" then "<unknown>" else ctx.module_name,
        default_def, none⟩
  | none =>
    ⟨if ctx.module_name = "" then "<unknown>" else ctx.module_name,
      default_def, none⟩

/-- Allowed party set of `AuthControllerAlignmentRule.visit_choice`
(lines 50-55 of `src/daml_sast/rules/examples.py`): the template's inferred
signatories, unioned with the inferred key maintainers when the template
has a key. -/
def authAllowedSet (template : Template) : PartySet :=
  let signatories := infer_party_set template.signatories []
  match template.key with
  | some k => signatories.union (infer_party_set k.maintainers [])
  | none => signatories

/-- Method `AuthControllerAlignmentRule.visit_choice` from
`src/daml_sast/rules/examples.py`, returning the list of findings passed to
`emit` (zero or one). -/
def authControllerAlignment_visit_choice (ctx : Ctx) (template : Template)
    (choice : Choice) : List Finding :=
  let controllers := infer_party_set choice.controllers []
  if controllers.is_definitely_not_subset_of (authAllowedSet template) then
    [{ id := "DAML-AUTH-001",
       title := "Controller not aligned with signatories",
       severity := .MEDIUM,
       confidence := .MEDIUM,
       category := "auth",
       message := "Choice controllers are not a subset of signatories/maintainers.",
       location := location_from (some choice.controllers) ctx
         ("Choice " ++ choice.name),
       evidence := [⟨"choice", "controllers expression",
         choice.controllers.lf_ref⟩],
       related := [],
       metadata := [("template", template.name), ("choice", choice.name)],
       fingerprint := none }]
  else []

/-- C1: `DAML-AUTH-001` emits a finding on a choice exactly when the
inferred controller party set is definitely-not-a-subset of the union of
the inferred signatories and (when a key is present) the inferred key
maintainers; in particular no finding is emitted when either side of the
comparison is unknown. -/
theorem auth_controller_alignment_emits_iff :
    ∀ (ctx : Ctx) (template : Template) (choice : Choice),
      (authControllerAlignment_visit_choice ctx template choice ≠ []
        ↔ (infer_party_set choice.controllers
            []).is_definitely_not_subset_of (authAllowedSet template) = true)
      ∧ (((infer_party_set choice.controllers []).unknown = true
            ∨ (authAllowedSet template).unknown = true) →
          authControllerAlignment_visit_choice ctx template choice = []) := by
  intro ctx template choice
  constructor
  · unfold authControllerAlignment_visit_choice
    by_cases h : (infer_party_set choice.controllers
        []).is_definitely_not_subset_of (authAllowedSet template) = true
    · simp [h]
    · simp [h]
  · intro h
    unfold authControllerAlignment_visit_choice
    have hfalse : (infer_party_set choice.controllers
        []).is_definitely_not_subset_of (authAllowedSet template) = false := by
      rcases h with h | h <;>
        simp [PartySet.is_definitely_not_subset_of, h]
    simp [hfalse]

/-- Witness for C1: a choice whose controllers are an unbound variable
(unknown party set) produces no `DAML-AUTH-001` finding. -/
theorem auth_controller_alignment_emits_iff_witness :
    authControllerAlignment_visit_choice
        ⟨"pkg", "Mod", none, none, []⟩
        { name := "T",
          signatories := .mk "party" (some (.str "A")) [] none none none,
          observers := .mk "list" none [] none none none,
          choices := [] }
        { name := "Do", consuming := true,
          controllers := .mk "var" (some (.str "arg")) [] none none none,
          update := .mk "update" none [] none none none }
      = [] :=
  (auth_controller_alignment_emits_iff
      ⟨"pkg", "Mod", none, none, []⟩
      { name := "T",
        signatories := .mk "party" (some (.str "A")) [] none none none,
        observers := .mk "list" none [] none none none,
        choices := [] }
      { name := "Do", consuming := true,
        controllers := .mk "var" (some (.str "arg")) [] none none none,
        update := .mk "update" none [] none none none }).2
    (Or.inl (by simp [infer_kind_var, var_branch, List.lookup,
      PartySet.unknown_set]))

/-- Hex digit character for a value below 16, as produced by Python
hexadecimal formatting (lowercase). -/
def hexDigit (n : Nat) : Char :=
  if n < 10 then Char.ofNat (48 + n) else Char.ofNat (97 + (n - 10))

/-- Four-digit lowercase hex rendering used by JSON `\uXXXX` escapes. -/
def toHex4 (n : Nat) : String :=
  String.mk [hexDigit (n / 4096 % 16), hexDigit (n / 256 % 16),
    hexDigit (n / 16 % 16), hexDigit (n % 16)]

/-- Escape of a single character under `json.dumps` defaults
(`ensure_ascii=True`): the two-character escapes for quote, backslash and
the common control characters, `\uXXXX` for other control and all
non-ASCII characters (with surrogate pairs above the BMP), and the literal
character for printable ASCII. -/
def jsonEscapeChar (c : Char) : String :=
  if c = '"' then "\\\""
  else if c = '\\' then "\\\\"
  else if c.toNat = 10 then "\\n"
  else if c.toNat = 13 then "\\r"
  else if c.toNat = 9 then "\\t"
  else if c.toNat = 8 then "\\b"
  else if c.toNat = 12 then "\\f"
  else if c.toNat < 32 then "\\u" ++ toHex4 c.toNat
  else if c.toNat < 127 then String.singleton c
  else if c.toNat < 65536 then "\\u" ++ toHex4 c.toNat
  else
    "\\u" ++ toHex4 (55296 + (c.toNat - 65536) / 1024)
      ++ "\\u" ++ toHex4 (56320 + (c.toNat - 65536) % 1024)

/-- JSON string literal for a text value, per `json.dumps` defaults. -/
def jsonStr (s : String) : String :=
  "\"" ++ String.join (s.toList.map jsonEscapeChar) ++ "\""

/-- JSON rendering of an optional integer: `null` for `None`. -/
def jsonOptInt : Option Int → String
  | none => "null"
  | some i => toString i

/-- JSON rendering of the optional span of `compute_fingerprint`
(`src/daml_sast/util/fingerprint.py` lines 12-19): `null` when absent,
else the four fields with keys sorted
(`end_col`, `end_line`, `start_col`, `start_line`) and no whitespace. -/
def jsonSpan : Option SourceSpan → String
  | none => "null"
  | some sp =>
    "\x7b\"end_col\":" ++ jsonOptInt sp.end_col
      ++ ",\"end_line\":" ++ jsonOptInt sp.end_line
      ++ ",\"start_col\":" ++ jsonOptInt sp.start_col
      ++ ",\"start_line\":" ++ jsonOptInt sp.start_line ++ "\x7d"

/-- Metadata in canonical form: the Python
`{k: finding.metadata[k] for k in sorted(finding.metadata)}` iterates the
dict's (unique) keys in sorted order; on the association-list model this is
the deduplicated key list sorted, each paired with its first-hit value. -/
def canonMetadata (m : List (String × String)) : List (String × String) :=
  (List.insertionSort (· ≤ ·) (m.map Prod.fst).dedup).map
    (fun k => (k, (m.lookup k).getD ""))

/-- JSON rendering of the metadata dict with sorted keys and no
whitespace. -/
def jsonMetadata (m : List (String × String)) : String :=
  "\x7b" ++ String.intercalate ","
      ((canonMetadata m).map (fun kv => jsonStr kv.1 ++ ":" ++ jsonStr kv.2))
    ++ "\x7d"

/-- Canonical JSON serialization of the fingerprint payload
`{"id", "module", "definition", "span", "metadata"}` with sorted keys
(`definition`, `id`, `metadata`, `module`, `span`), `,`/`:` separators and
no whitespace, exactly as `json.dumps(payload, sort_keys=True,
separators=(",", ":"))` renders the dict built in `compute_fingerprint`. -/
def canonicalPayloadJson (id module definition : String)
    (span : Option SourceSpan) (metadata : List (String × String)) : String :=
  "\x7b\"definition\":" ++ jsonStr definition
    ++ ",\"id\":" ++ jsonStr id
    ++ ",\"metadata\":" ++ jsonMetadata metadata
    ++ ",\"module\":" ++ jsonStr module
    ++ ",\"span\":" ++ jsonSpan span
    ++ "\x7d"

/-- Function `compute_fingerprint` from `src/daml_sast/util/fingerprint.py`.
SHA-256 over the UTF-8 encoding followed by hex encoding is opaque
third-party code, passed in as `sha256_hex`. -/
def compute_fingerprint (sha256_hex : String → String) (finding : Finding) :
    String :=
  sha256_hex (canonicalPayloadJson finding.id finding.location.module
    finding.location.definition finding.location.span finding.metadata)

theorem lookup_isSome_iff_mem_keys (k : String)
    (m : List (String × String)) :
    (m.lookup k).isSome = true ↔ k ∈ m.map Prod.fst := by
  induction m with
  | nil => simp [List.lookup]
  | cons kv m ih =>
    obtain ⟨a, b⟩ := kv
    by_cases h : k = a
    · subst h
      simp [List.lookup]
    · simp [List.lookup, beq_false_of_ne h, ih, h, Ne.symm h]

/-- Metadata association lists with the same lookup function have the same
canonical form. -/
theorem canonMetadata_congr (m1 m2 : List (String × String))
    (h : ∀ k, m1.lookup k = m2.lookup k) :
    canonMetadata m1 = canonMetadata m2 := by
  have hkeys : List.insertionSort (· ≤ ·) (m1.map Prod.fst).dedup
      = List.insertionSort (· ≤ ·) (m2.map Prod.fst).dedup := by
    refine List.eq_of_perm_of_sorted ?_ (List.sorted_insertionSort _ _)
      (List.sorted_insertionSort _ _)
    refine ((List.perm_insertionSort _ _).trans ?_).trans
      (List.perm_insertionSort _ _).symm
    refine (List.perm_ext_iff_of_nodup (List.nodup_dedup _)
      (List.nodup_dedup _)).2 ?_
    intro a
    rw [List.mem_dedup, List.mem_dedup, ← lookup_isSome_iff_mem_keys,
      ← lookup_isSome_iff_mem_keys, h a]
  unfold canonMetadata
  rw [hkeys]
  apply List.map_congr_left
  intro a _
  rw [h a]

/-- C7: `compute_fingerprint` equals the SHA-256 hex digest of the
canonical JSON serialization of `(id, module, definition, span, metadata)`
(sorted keys, no whitespace, metadata keys sorted, `null` for an absent
span), and is therefore identical on any two findings agreeing on those
five fields. -/
theorem compute_fingerprint_stable :
    (∀ (sha256_hex : String → String) (f : Finding),
      compute_fingerprint sha256_hex f
        = sha256_hex (canonicalPayloadJson f.id f.location.module
            f.location.definition f.location.span f.metadata))
  ∧ (∀ (sha256_hex : String → String) (f g : Finding),
      f.id = g.id → f.location.module = g.location.module →
      f.location.definition = g.location.definition →
      f.location.span = g.location.span →
      (∀ k, f.metadata.lookup k = g.metadata.lookup k) →
      compute_fingerprint sha256_hex f = compute_fingerprint sha256_hex g) := by
  constructor
  · intro sha f
    rfl
  · intro sha f g hid hmod hdef hspan hmeta
    unfold compute_fingerprint canonicalPayloadJson jsonMetadata
    rw [hid, hmod, hdef, hspan, canonMetadata_congr f.metadata g.metadata hmeta]

/-- Witness for C7: two findings whose metadata dicts hold the same
entries in different insertion orders receive the same fingerprint. -/
theorem compute_fingerprint_stable_witness :
    compute_fingerprint (fun s => s)
        { id := "DAML-AUTH-001", title := "t", severity := .MEDIUM,
          confidence := .MEDIUM, category := "auth", message := "m",
          location := ⟨"M", "D", none⟩,
          metadata := [("a", "1"), ("b", "2")] }
      = compute_fingerprint (fun s => s)
          { id := "DAML-AUTH-001", title := "other title",
            severity := .HIGH, confidence := .LOW, category := "other",
            message := "other message", location := ⟨"M", "D", none⟩,
            metadata := [("b", "2"), ("a", "1")] } :=
  compute_fingerprint_stable.2 (fun s => s) _ _ rfl rfl rfl rfl (by
    intro k
    by_cases h1 : k = "a"
    · subst h1
      rfl
    by_cases h2 : k = "b"
    · subst h2
      rfl
    simp [List.lookup, beq_false_of_ne h1, beq_false_of_ne h2])

/-- Python truthiness of the optional fingerprint field as tested by
`if f.fingerprint:` in `run`: `None` and the empty string are falsy. -/
def fingerprint_truthy : Option String → Bool
  | none => false
  | some s => !(s == "")

/-- Finding finalization of `run` in `src/daml_sast/engine/runner.py`.
`walk_program` (the traversal producing the emitted findings) is abstracted
as the input list `emitted`, in emission order; the loop appending to
`finalized` is the map.  SHA-256 is passed through to
`compute_fingerprint`. -/
def run (sha256_hex : String → String) (emitted : List Finding) :
    List Finding :=
  emitted.map (fun f =>
    if fingerprint_truthy f.fingerprint then f
    else { f with fingerprint := some (compute_fingerprint sha256_hex f) })

/-- Finding with an empty-string fingerprint, the counterexample input for
the finalization frame claim. -/
def emptyFingerprintFinding : Finding :=
  { id := "DAML-AUTH-001", title := "t", severity := .MEDIUM,
    confidence := .MEDIUM, category := "auth", message := "m",
    location := ⟨"M", "D", none⟩, fingerprint := some "" }

/-- Counterexample to C9 as stated: a finding that carries the fingerprint
`""` does not appear in the result unchanged — `if f.fingerprint:` treats
the empty string as falsy, so the fingerprint is recomputed. -/
theorem run_empty_fingerprint_cex :
    run (fun _ => "d0") [emptyFingerprintFinding]
        = [{ emptyFingerprintFinding with fingerprint := some "d0" }]
      ∧ run (fun _ => "d0") [emptyFingerprintFinding]
          ≠ [emptyFingerprintFinding] := by
  constructor
  · rfl
  · decide

/-- C9 (amended): `run` returns exactly one output finding per emitted
finding, in emission order; a finding carrying a non-empty fingerprint
appears unchanged, and a finding whose fingerprint is absent or empty
appears with only its fingerprint field set to `compute_fingerprint` of
that finding. -/
theorem run_frame :
    ∀ (sha256_hex : String → String) (emitted : List Finding),
      (run sha256_hex emitted).length = emitted.length
      ∧ ∀ i : Nat,
          (run sha256_hex emitted)[i]?
            = (emitted[i]?).map (fun f =>
                if fingerprint_truthy f.fingerprint then f
                else { f with
                  fingerprint := some (compute_fingerprint sha256_hex f) }) := by
  intro sha emitted
  constructor
  · simp [run]
  · intro i
    simp [run]

/-- Base resolver surface, from `LfResolverBase` in
`src/daml_sast/lf/resolve.py`.  Only the owning package id is needed for
the `fqn_with_package` claim; the interned tables the Python constructor
also stores play no part in it. -/
structure LfResolverBase where
  package_id : String
deriving DecidableEq, Repr

/-- Method `LfResolverBase.fqn_with_package`: an empty module yields the
bare name; otherwise the name is qualified by the module, with the package
id prefixed when it differs from the owning package. -/
def LfResolverBase.fqn_with_package (self : LfResolverBase)
    (pkg_id module name : String) : String :=
  if module = "" then name
  else if pkg_id = self.package_id then module ++ "." ++ name
  else pkg_id ++ ":" ++ module ++ "." ++ name

/-- Counterexample to C8 as stated: with an empty module name and a foreign
package id the method returns the bare name, not `pkg:module.name`. -/
theorem fqn_with_package_empty_module_cex :
    (LfResolverBase.mk "p0").fqn_with_package "q" "" "n" = "n"
      ∧ ("n" : String) ≠ "q" ++ ":" ++ "" ++ "." ++ "n" := by
  constructor
  · rfl
  · decide

/-- C8 (amended): `fqn_with_package(pkg, module, name)` returns `name` when
the module is empty; otherwise it returns `module.name` when `pkg` equals
the resolver's owning package id and `pkg:module.name` when it differs. -/
theorem fqn_with_package_amended :
    ∀ (r : LfResolverBase) (pkg_id module name : String),
      (module = "" → r.fqn_with_package pkg_id module name = name)
      ∧ (module ≠ "" → pkg_id = r.package_id →
          r.fqn_with_package pkg_id module name = module ++ "." ++ name)
      ∧ (module ≠ "" → pkg_id ≠ r.package_id →
          r.fqn_with_package pkg_id module name
            = pkg_id ++ ":" ++ module ++ "." ++ name) := by
  intro r pkg_id module name
  refine ⟨?_, ?_, ?_⟩
  · intro h
    simp [LfResolverBase.fqn_with_package, h]
  · intro h hp
    simp [LfResolverBase.fqn_with_package, h, hp]
  · intro h hp
    simp [LfResolverBase.fqn_with_package, h, hp]

/-- Witness for C8: a same-package qualified name at a concrete input. -/
theorem fqn_with_package_amended_witness :
    (LfResolverBase.mk "p0").fqn_with_package "p0" "Mod" "n"
      = "Mod" ++ "." ++ "n" :=
  (fqn_with_package_amended (LfResolverBase.mk "p0") "p0" "Mod" "n").2.1
    (by decide) rfl

/-- Wire-level LF1 expression fragment relevant to list lowering
(`daml_lf1_pb2.Expr` restricted to the `Sum` cases that
`_lower_expr_lf1` treats specially for lists): `nil` carries the element
type and the node location, `cons` carries the `front` list, the `tail`
and the location.  Every other oneof case is abstracted as `other e`,
where `e` is the IR expression its lowering produces. -/
inductive WExpr where
  | nil (elem : IrType) (loc : Option Location)
  | cons (front : List WExpr) (tail : WExpr) (loc : Option Location)
  | other (lowered : Expr)

theorem WExpr.sizeOf_pos (w : WExpr) : 0 < sizeOf w := by
  cases w <;> simp_arith

mutual

/-- The `nil` and `cons` cases of `_lower_expr_lf1` in
`src/daml_sast/ir/lower.py` (lines 647-658): a wire `nil` lowers to an
empty `list` node carrying the list type; a wire `cons` lowers to a
`list` node when `_flatten_list_lf1` succeeds and otherwise to a `cons`
node whose children are the lowered heads followed by the lowered tail. -/
def lower_expr_lf1 : WExpr → Expr
  | .nil elem loc =>
    .mk "list" none [] loc (some (.mk "list" none [elem])) none
  | .cons front tail loc =>
    match flatten_list_lf1 front tail with
    | some items => .mk "list" none items loc none none
    | none =>
      .mk "cons" none (lower_list front ++ [lower_expr_lf1 tail]) loc none
        none
  | .other lowered => lowered
termination_by e => sizeOf e
decreasing_by
  all_goals simp_wf
  all_goals omega

/-- Function `_flatten_list_lf1` from `src/daml_sast/ir/lower.py`
(lines 1581-1597): lower the `front` items, then append the flattening of
the tail when it is again a `cons`, stop at `nil`, and give up (`None`) on
any other tail. -/
def flatten_list_lf1 (front : List WExpr) (tail : WExpr) :
    Option (List Expr) :=
  let items := lower_list front
  match tail with
  | .nil _ _ => some items
  | .cons f2 t2 _ =>
    (flatten_list_lf1 f2 t2).map (fun rest => items ++ rest)
  | .other _ => none
termination_by sizeOf front + sizeOf tail
decreasing_by
  all_goals simp_wf
  · have := WExpr.sizeOf_pos tail
    omega
  · omega

/-- Pointwise lowering of a list of wire expressions (the comprehensions
over `cons.front` in `_lower_expr_lf1` and `_flatten_list_lf1`). -/
def lower_list : List WExpr → List Expr
  | [] => []
  | e :: es => lower_expr_lf1 e :: lower_list es
termination_by l => sizeOf l
decreasing_by
  all_goals simp_wf
  all_goals omega

end

/-- Whether the tail chain of a wire `cons` reaches `nil` through repeated
`cons`/`nil` nesting (the success condition of `_flatten_list_lf1`). -/
def reaches_nil : WExpr → Bool
  | .nil _ _ => true
  | .cons _ tail _ => reaches_nil tail
  | .other _ => false

/-- Total number of literal elements in a wire list chain: the `front`
lengths summed along the `cons` spine. -/
def literal_count : WExpr → Nat
  | .nil _ _ => 0
  | .cons front tail _ => front.length + literal_count tail
  | .other _ => 0

theorem lower_list_length (l : List WExpr) :
    (lower_list l).length = l.length := by
  induction l with
  | nil => simp [lower_list]
  | cons e es ih => simp [lower_list, ih]

theorem flatten_isSome (front : List WExpr) (tail : WExpr) :
    (flatten_list_lf1 front tail).isSome = reaches_nil tail := by
  cases tail with
  | nil elem l => simp [flatten_list_lf1, reaches_nil]
  | cons f2 t2 l =>
    have ih := flatten_isSome f2 t2
    simp only [flatten_list_lf1, reaches_nil]
    rw [← ih]
    cases flatten_list_lf1 f2 t2 <;> rfl
  | other e => simp [flatten_list_lf1, reaches_nil]
termination_by sizeOf tail

theorem flatten_length (front : List WExpr) (tail : WExpr)
    (items : List Expr) (h : flatten_list_lf1 front tail = some items) :
    items.length = front.length + literal_count tail := by
  cases tail with
  | nil elem l =>
    simp [flatten_list_lf1] at h
    subst h
    simp [literal_count, lower_list_length]
  | cons f2 t2 l =>
    simp [flatten_list_lf1] at h
    obtain ⟨rest, hrest, hitems⟩ := h
    subst hitems
    have ih := flatten_length f2 t2 rest hrest
    simp [literal_count, lower_list_length, ih]
    try omega
  | other e => simp [flatten_list_lf1] at h
termination_by sizeOf tail

/-- C4: lowering a wire `cons` yields a `list` IR node exactly when the
tail chain reaches `nil`, and then the child count equals the chain's
literal element count; otherwise it yields a `cons` IR node whose children
are the lowered heads followed by the lowered tail; a wire `nil` lowers to
a `list` node with zero children. -/
theorem lower_cons_flattening :
    (∀ (front : List WExpr) (tail : WExpr) (loc : Option Location),
      ((lower_expr_lf1 (.cons front tail loc)).kind = "list"
        ↔ reaches_nil tail = true)
      ∧ (reaches_nil tail = true →
          (lower_expr_lf1 (.cons front tail loc)).children.length
            = literal_count (.cons front tail loc))
      ∧ (reaches_nil tail = false →
          lower_expr_lf1 (.cons front tail loc)
            = .mk "cons" none (lower_list front ++ [lower_expr_lf1 tail])
                loc none none))
  ∧ (∀ (elem : IrType) (loc : Option Location),
      lower_expr_lf1 (.nil elem loc)
        = .mk "list" none [] loc (some (.mk "list" none [elem])) none) := by
  constructor
  · intro front tail loc
    refine ⟨?_, ?_, ?_⟩
    · cases hf : flatten_list_lf1 front tail with
      | none =>
        have := flatten_isSome front tail
        rw [hf] at this
        simp [lower_expr_lf1, hf, Expr.kind, ← this]
      | some items =>
        have := flatten_isSome front tail
        rw [hf] at this
        simp [lower_expr_lf1, hf, Expr.kind, ← this]
    · intro hreach
      cases hf : flatten_list_lf1 front tail with
      | none =>
        have := flatten_isSome front tail
        rw [hf, hreach] at this
        simp at this
      | some items =>
        simp [lower_expr_lf1, hf, Expr.children, literal_count]
        exact flatten_length front tail items hf
    · intro hreach
      cases hf : flatten_list_lf1 front tail with
      | none => simp [lower_expr_lf1, hf]
      | some items =>
        have := flatten_isSome front tail
        rw [hf, hreach] at this
        simp at this
  · intro elem loc
    simp [lower_expr_lf1]

/-- Witness for C4: a cons whose tail is a variable stays a `cons` node
with the lowered heads and tail as children. -/
theorem lower_cons_flattening_witness :
    lower_expr_lf1
        (.cons [.nil (.mk "con" (some "Party") []) none]
          (.other (.mk "var" (some (.str "xs")) [] none none none)) none)
      = .mk "cons" none
          (lower_list [.nil (.mk "con" (some "Party") []) none]
            ++ [lower_expr_lf1
              (.other (.mk "var" (some (.str "xs")) [] none none none))])
          none none none :=
  ((lower_cons_flattening.1 [.nil (.mk "con" (some "Party") []) none]
      (.other (.mk "var" (some (.str "xs")) [] none none none))
      none).2.2) rfl

/-- Daml-LF version, from `LfVersion` in `src/daml_sast/lf/compat.py`. -/
structure LfVersion where
  major : Int
  minor : Int
  patch : Option Int := none
deriving DecidableEq, Repr

/-- Method `LfVersion.short`: `"major.minor"`. -/
def LfVersion.short (v : LfVersion) : String :=
  toString v.major ++ "." ++ toString v.minor

/-- Method `LfVersion.full`: `"major.minor.patch"` when a patch is
present, else `short`. -/
def LfVersion.full (v : LfVersion) : String :=
  match v.patch with
  | some p => toString v.major ++ "." ++ toString v.minor ++ "." ++ toString p
  | none => v.short

/-- Supported language versions, from `SUPPORTED_VERSIONS` in
`src/daml_sast/lf/compat.py` (a Python set, modelled as a list with
membership). -/
def SUPPORTED_VERSIONS : List String :=
  ["1.6", "1.7", "1.8", "1.11", "1.14", "1.15", "1.17", "2.1"]

/-- Function `is_supported` from `src/daml_sast/lf/compat.py`. -/
def is_supported (v : LfVersion) : Bool :=
  SUPPORTED_VERSIONS.contains v.short

/-- Splitting accumulator for `split_on_dot`: cut the character list at
every dot, keeping empty segments, exactly as Python
`str.split(".")` does. -/
def split_dot_aux : List Char → List Char → List String
  | [], acc => [String.mk acc.reverse]
  | c :: cs, acc =>
    if c = '.' then String.mk acc.reverse :: split_dot_aux cs []
    else split_dot_aux cs (c :: acc)

/-- Python `minor_str.split(".")`. -/
def split_on_dot (s : String) : List String :=
  split_dot_aux s.toList []

/-- Decimal digit accumulation for `parse_int`; fails on the empty digit
list and on any non-digit character. -/
def parse_digits : List Char → Nat → Option Nat
  | [], acc => some acc
  | c :: cs, acc =>
    if c.isDigit then parse_digits cs (acc * 10 + (c.toNat - 48)) else none

/-- Python `int(text)` on the decimal forms relevant to version strings: an
optional leading minus followed by one or more digits (`None` models the
`ValueError` of other inputs; Python also strips whitespace and accepts a
leading plus and underscores, forms no Daml-LF version text uses). -/
def parse_int (s : String) : Option Int :=
  match s.toList with
  | [] => none
  | c :: cs =>
    if c = (Char.ofNat 45) then
      match cs with
      | [] => none
      | _ => (parse_digits cs 0).map (fun n => -(n : Int))
    else (parse_digits (c :: cs) 0).map (fun n => (n : Int))

/-- Function `normalize_version` from `src/daml_sast/lf/compat.py`,
returning `Except` where the Python raises `ValueError` (including the
`ValueError` a failing `int()` raises, modelled with `parse_int`). -/
def normalize_version (major : Int) (minor_str : Option String)
    (patch : Option Int) : Except String LfVersion :=
  match minor_str with
  | none => .error "Missing Daml-LF minor version"
  | some ms =>
    if ms = "" then .error "Missing Daml-LF minor version"
    else
      match split_on_dot ms with
      | [p0] =>
        match parse_int p0 with
        | some minor => .ok ⟨major, minor, patch⟩
        | none => .error "invalid literal for int()"
      | [p0, p1] =>
        match parse_int p0, parse_int p1 with
        | some major_part, some minor =>
          if major_part ≠ major then .error "Version major mismatch"
          else .ok ⟨major, minor, patch⟩
        | _, _ => .error "invalid literal for int()"
      | _ => .error "Unrecognized Daml-LF version format"

/-- Failure kinds raised as `ProtoDecodeError` by `decode_dalf` and its
helpers in `src/daml_sast/lf/decoder.py`, one constructor per raise
site. -/
inductive ProtoDecodeErr where
  | size_exceeded
  | archive_decode_failed
  | unsupported_hash_function
  | payload_missing
  | payload_size_exceeded
  | hash_mismatch
  | payload_decode_failed
  | unsupported_variant
  | package_bytes_missing
  | package_size_exceeded
  | version_error (msg : String)
  | lf1_decode_failed
  | lf2_decode_failed
  | unsupported_version
  | proto_limits_exceeded
deriving DecidableEq, Repr

/-- Parsed wire archive (`daml_lf_pb2.Archive`): hash function enum value,
declared hex hash (the empty string when the proto3 field is unset), and
payload bytes. -/
structure Archive where
  hash_function : Nat
  hash : String
  payload : List Nat
deriving DecidableEq, Repr

/-- Enum value `daml_lf_pb2.SHA256`. -/
def SHA256 : Nat := 0

/-- The `Sum` oneof of `daml_lf_pb2.ArchivePayload`: v1 package bytes, v2
package bytes, or any other variant. -/
inductive PayloadSum where
  | daml_lf_1 (package_bytes : List Nat)
  | daml_lf_2 (package_bytes : List Nat)
  | other
deriving DecidableEq, Repr

/-- Parsed wire archive payload (`daml_lf_pb2.ArchivePayload`): the minor
version text, the optional patch and the selected variant. -/
structure ArchivePayload where
  minor : String
  patch : Option Int := none
  sum : PayloadSum
deriving DecidableEq, Repr

/-- An extracted dalf container entry, from `DalfEntry` in
`src/daml_sast/lf/archive.py` (bytes as `List Nat`). -/
structure DalfEntry where
  path : String
  raw : List Nat
deriving DecidableEq, Repr

/-- The three limits `decode_dalf` reads from `limits()`
(`src/daml_sast/lf/limits.py`); the remaining limit fields concern the
container reader and the proto traversal, which are outside this model. -/
structure LfLimits where
  max_dalf_bytes : Nat
  max_archive_payload_bytes : Nat
  max_package_bytes : Nat
deriving DecidableEq, Repr

/-- Opaque third-party and protobuf-level operations used by
`decode_dalf`, as parameters: SHA-256 hex digesting, the three
`ParseFromString` calls (`None` models a parse failure), the outcome of
`_enforce_proto_limits` and the composition of
`_extract_interned_tables` with `_extract_metadata`.  `α` is the type of
parsed package messages. -/
structure DecodeFns (α : Type) where
  sha256_hex : List Nat → String
  parse_archive : List Nat → Option Archive
  parse_archive_payload : List Nat → Option ArchivePayload
  parse_lf1_package : List Nat → Option α
  parse_lf2_package : List Nat → Option α
  enforce_proto_limits_ok : α → Bool
  metadata_name : α → String
  metadata_version : α → String

/-- Decoded package record, from `LfPackage` in
`src/daml_sast/lf/decoder.py` (the `interned` tables field is
protobuf-level data folded into the `metadata_name`/`metadata_version`
parameters and omitted here). -/
structure LfPackage (α : Type) where
  package_id : String
  name : String
  version : String
  lf_version : String
  lf_version_full : String
  lf_major : Int
  lf_minor : Int
  lf_patch : Option Int
  archive_payload : List Nat
  package_bytes : List Nat
  dalf_path : String
  lf_package : α

/-- Function `_decode_lf1_fallback_as_lf2` from
`src/daml_sast/lf/decoder.py`: try the v2 schema; re-raise the original v1
error `err` when the v2 parse fails or the metadata name is not
`"daml-prim"`; otherwise the package is treated as v2 `2.1` (the Python
calls `normalize_version(2, "1", None)`, which returns `LfVersion(2, 1,
None)`, see `normalize_version_two_one`). -/
def decode_lf1_fallback_as_lf2 {α : Type} (F : DecodeFns α)
    (raw : List Nat) (err : ProtoDecodeErr) :
    Except ProtoDecodeErr (α × LfVersion × Int) :=
  match F.parse_lf2_package raw with
  | none => .error err
  | some lf2_pkg =>
    if F.metadata_name lf2_pkg ≠ "daml-prim" then .error err
    else .ok (lf2_pkg, ⟨2, 1, none⟩, 2)

theorem normalize_version_two_one :
    normalize_version 2 (some "1") none = .ok ⟨2, 1, none⟩ := rfl

/-- Continuation of `decode_dalf` from the point where the payload variant
has been selected (`lf_major`, `package_bytes`): the package-bytes guards,
version normalization, the per-dialect parse with the v1→v2 fallback, the
supported-version gate, the proto-limit traversal and the final `LfPackage`
construction (lines 92-140 of `src/daml_sast/lf/decoder.py`). -/
def decode_rest {α : Type} (F : DecodeFns α) (lim : LfLimits)
    (entry : DalfEntry) (archive : Archive) (payload : ArchivePayload)
    (lf_major : Int) (package_bytes : List Nat) :
    Except ProtoDecodeErr (LfPackage α) :=
  if package_bytes = [] then .error .package_bytes_missing
  else if package_bytes.length > lim.max_package_bytes then
    .error .package_size_exceeded
  else
    match normalize_version lf_major (some payload.minor) payload.patch with
    | .error msg => .error (.version_error msg)
    | .ok version0 =>
      match ((if lf_major = 1 then
          match F.parse_lf1_package package_bytes with
          | some lf_pkg => Except.ok (lf_pkg, version0, (1 : Int))
          | none =>
            decode_lf1_fallback_as_lf2 F package_bytes .lf1_decode_failed
        else
          match F.parse_lf2_package package_bytes with
          | some lf_pkg => Except.ok (lf_pkg, version0, lf_major)
          | none => Except.error ProtoDecodeErr.lf2_decode_failed) :
          Except ProtoDecodeErr (α × LfVersion × Int)) with
      | .error e => .error e
      | .ok (lf_pkg, version, _lf_major2) =>
        if !(is_supported version) then .error .unsupported_version
        else if !(F.enforce_proto_limits_ok lf_pkg) then
          .error .proto_limits_exceeded
        else
          .ok { package_id :=
                  if archive.hash ≠ "" then archive.hash
                  else F.sha256_hex archive.payload,
                name := F.metadata_name lf_pkg,
                version := F.metadata_version lf_pkg,
                lf_version := version.short,
                lf_version_full := version.full,
                lf_major := version.major,
                lf_minor := version.minor,
                lf_patch := version.patch,
                archive_payload := archive.payload,
                package_bytes := package_bytes,
                dalf_path := entry.path,
                lf_package := lf_pkg }

/-- Function `decode_dalf` from `src/daml_sast/lf/decoder.py`: the archive
size guard, envelope parse, hash-function check, payload guards, the
declared-hash equality check (`if archive.hash: ... != archive.hash`,
where the empty proto3 string is the absent hash), the payload parse and
variant selection, then `decode_rest`. -/
def decode_dalf {α : Type} (F : DecodeFns α) (lim : LfLimits)
    (entry : DalfEntry) : Except ProtoDecodeErr (LfPackage α) :=
  if entry.raw.length > lim.max_dalf_bytes then .error .size_exceeded
  else
    match F.parse_archive entry.raw with
    | none => .error .archive_decode_failed
    | some archive =>
      if archive.hash_function ≠ SHA256 then
        .error .unsupported_hash_function
      else if archive.payload = [] then .error .payload_missing
      else if archive.payload.length > lim.max_archive_payload_bytes then
        .error .payload_size_exceeded
      else if archive.hash ≠ "" ∧ F.sha256_hex archive.payload ≠ archive.hash
      then .error .hash_mismatch
      else
        match F.parse_archive_payload archive.payload with
        | none => .error .payload_decode_failed
        | some payload =>
          match payload.sum with
          | .daml_lf_1 package_bytes =>
            decode_rest F lim entry archive payload 1 package_bytes
          | .daml_lf_2 package_bytes =>
            decode_rest F lim entry archive payload 2 package_bytes
          | .other => .error .unsupported_variant

/-- On success, `decode_rest` assigns the package id
`archive.hash or sha256(payload)`. -/
theorem decode_rest_ok_package_id {α : Type} (F : DecodeFns α)
    (lim : LfLimits) (entry : DalfEntry) (archive : Archive)
    (payload : ArchivePayload) (lf_major : Int) (package_bytes : List Nat)
    (pkg : LfPackage α)
    (h : decode_rest F lim entry archive payload lf_major package_bytes
        = .ok pkg) :
    pkg.package_id
      = (if archive.hash ≠ "" then archive.hash
         else F.sha256_hex archive.payload) := by
  unfold decode_rest at h
  split at h
  · exact Except.noConfusion h
  split at h
  · exact Except.noConfusion h
  split at h
  · exact Except.noConfusion h
  split at h
  · exact Except.noConfusion h
  split at h
  · exact Except.noConfusion h
  split at h
  · exact Except.noConfusion h
  rw [← Except.ok.inj h]

/-- C5: whenever `decode_dalf` succeeds, the package id equals the declared
hex hash when the envelope carries one (and that hash then equals the
SHA-256 of the payload bytes), and the SHA-256 hex digest of the payload
bytes otherwise; and when a declared hash is present but differs from the
computed SHA-256 (all earlier guards passing), decoding fails with the
hash-mismatch error. -/
theorem decode_dalf_package_id_and_hash_check {α : Type} :
    (∀ (F : DecodeFns α) (lim : LfLimits) (entry : DalfEntry)
        (pkg : LfPackage α),
      decode_dalf F lim entry = .ok pkg →
      ∃ archive, F.parse_archive entry.raw = some archive
        ∧ pkg.package_id
            = (if archive.hash ≠ "" then archive.hash
               else F.sha256_hex archive.payload)
        ∧ (archive.hash ≠ "" → F.sha256_hex archive.payload = archive.hash))
  ∧ (∀ (F : DecodeFns α) (lim : LfLimits) (entry : DalfEntry)
        (archive : Archive),
      F.parse_archive entry.raw = some archive →
      ¬ entry.raw.length > lim.max_dalf_bytes →
      archive.hash_function = SHA256 →
      archive.payload ≠ [] →
      ¬ archive.payload.length > lim.max_archive_payload_bytes →
      archive.hash ≠ "" →
      F.sha256_hex archive.payload ≠ archive.hash →
      decode_dalf F lim entry = .error .hash_mismatch) := by
  constructor
  · intro F lim entry pkg h
    unfold decode_dalf at h
    split at h
    · exact Except.noConfusion h
    split at h
    · exact Except.noConfusion h
    rename_i archive harch
    refine ⟨archive, harch, ?_⟩
    split at h
    · exact Except.noConfusion h
    split at h
    · exact Except.noConfusion h
    split at h
    · exact Except.noConfusion h
    split at h
    · exact Except.noConfusion h
    rename_i hnm
    have hagree : archive.hash ≠ "" → F.sha256_hex archive.payload
        = archive.hash := by
      intro hne
      by_contra hdiff
      exact hnm ⟨hne, hdiff⟩
    split at h
    · exact Except.noConfusion h
    split at h
    · exact ⟨decode_rest_ok_package_id _ _ _ _ _ _ _ _ h, hagree⟩
    · exact ⟨decode_rest_ok_package_id _ _ _ _ _ _ _ _ h, hagree⟩
    · exact Except.noConfusion h
  · intro F lim entry archive harch hsz hhf hpl hps hhash hdiff
    unfold decode_dalf
    rw [if_neg hsz, harch]
    dsimp only
    rw [if_neg (by simp [hhf]), if_neg hpl, if_neg hps,
      if_pos ⟨hhash, hdiff⟩]

/-- C6: on a payload whose envelope selects v1, when v1 package parsing
fails (all guards up to that point passing): if the blob parses with the
v2 schema and the v2 metadata name is `"daml-prim"`, decoding yields a
package at version `2.1` with major 2 (provided the remaining proto-limit
traversal passes); in every other failure case — v2 parse failure or a
different metadata name — the original v1 decode error is propagated. -/
theorem decode_dalf_v1_fallback {α : Type} :
    ∀ (F : DecodeFns α) (lim : LfLimits) (entry : DalfEntry)
      (archive : Archive) (payload : ArchivePayload) (pb : List Nat)
      (version0 : LfVersion),
      ¬ entry.raw.length > lim.max_dalf_bytes →
      F.parse_archive entry.raw = some archive →
      archive.hash_function = SHA256 →
      archive.payload ≠ [] →
      ¬ archive.payload.length > lim.max_archive_payload_bytes →
      ¬ (archive.hash ≠ "" ∧ F.sha256_hex archive.payload ≠ archive.hash) →
      F.parse_archive_payload archive.payload = some payload →
      payload.sum = .daml_lf_1 pb →
      pb ≠ [] →
      ¬ pb.length > lim.max_package_bytes →
      normalize_version 1 (some payload.minor) payload.patch = .ok version0 →
      F.parse_lf1_package pb = none →
      ((F.parse_lf2_package pb = none →
          decode_dalf F lim entry = .error .lf1_decode_failed)
      ∧ (∀ p2, F.parse_lf2_package pb = some p2 →
          F.metadata_name p2 ≠ "daml-prim" →
          decode_dalf F lim entry = .error .lf1_decode_failed)
      ∧ (∀ p2, F.parse_lf2_package pb = some p2 →
          F.metadata_name p2 = "daml-prim" →
          F.enforce_proto_limits_ok p2 = true →
          ∃ pkg, decode_dalf F lim entry = .ok pkg
            ∧ pkg.lf_major = 2 ∧ pkg.lf_minor = 1
            ∧ pkg.lf_version = "2.1" ∧ pkg.lf_package = p2)) := by
  intro F lim entry archive payload pb version0 hsz harch hhf hpl hps hnm
    hpp hsum hpb hpbs hnorm hlf1
  have hstep : decode_dalf F lim entry
      = decode_rest F lim entry archive payload 1 pb := by
    unfold decode_dalf
    rw [if_neg hsz, harch]
    dsimp only
    rw [if_neg (by simp [hhf]), if_neg hpl, if_neg hps, if_neg hnm, hpp]
    dsimp only
    rw [hsum]
  have hrest : decode_rest F lim entry archive payload 1 pb
      = match decode_lf1_fallback_as_lf2 F pb .lf1_decode_failed with
        | .error e => .error e
        | .ok (lf_pkg, version, _) =>
          if !(is_supported version) then .error .unsupported_version
          else if !(F.enforce_proto_limits_ok lf_pkg) then
            .error .proto_limits_exceeded
          else
            .ok { package_id :=
                    if archive.hash ≠ "" then archive.hash
                    else F.sha256_hex archive.payload,
                  name := F.metadata_name lf_pkg,
                  version := F.metadata_version lf_pkg,
                  lf_version := version.short,
                  lf_version_full := version.full,
                  lf_major := version.major,
                  lf_minor := version.minor,
                  lf_patch := version.patch,
                  archive_payload := archive.payload,
                  package_bytes := pb,
                  dalf_path := entry.path,
                  lf_package := lf_pkg } := by
    unfold decode_rest
    rw [if_neg hpb, if_neg hpbs, hnorm]
    dsimp only
    rw [if_pos rfl, hlf1]
  refine ⟨?_, ?_, ?_⟩
  · intro h2
    rw [hstep, hrest]
    unfold decode_lf1_fallback_as_lf2
    rw [h2]
  · intro p2 h2 hname
    rw [hstep, hrest]
    unfold decode_lf1_fallback_as_lf2
    rw [h2]
    dsimp only
    rw [if_pos hname]
  · intro p2 h2 hname henf
    rw [hstep, hrest]
    unfold decode_lf1_fallback_as_lf2
    rw [h2]
    dsimp only
    rw [if_neg (by simp [hname])]
    dsimp only
    rw [if_neg (by decide), if_neg (by simp [henf])]
    exact ⟨_, rfl, rfl, rfl, rfl, rfl⟩

/-- Concrete decode oracle whose declared archive hash disagrees with the
computed digest. -/
def mismatchFns : DecodeFns Nat :=
  { sha256_hex := fun _ => "bb",
    parse_archive := fun _ => some ⟨0, "aa", [1]⟩,
    parse_archive_payload := fun _ => none,
    parse_lf1_package := fun _ => none,
    parse_lf2_package := fun _ => none,
    enforce_proto_limits_ok := fun _ => true,
    metadata_name := fun _ => "",
    metadata_version := fun _ => "" }

/-- Witness for C5: a declared hash differing from the computed digest
fails with the hash-mismatch error. -/
theorem decode_dalf_package_id_and_hash_check_witness :
    decode_dalf mismatchFns ⟨100, 100, 100⟩ ⟨"a.dalf", [9]⟩
      = .error .hash_mismatch :=
  decode_dalf_package_id_and_hash_check.2 mismatchFns ⟨100, 100, 100⟩
    ⟨"a.dalf", [9]⟩ ⟨0, "aa", [1]⟩ rfl (by decide) rfl (by decide)
    (by decide) (by decide) (by decide)

/-- Concrete decode oracle for the v1→v2 fallback: v1 parsing fails, v2
parsing succeeds, and the v2 metadata name is `daml-prim`. -/
def fallbackFns : DecodeFns Nat :=
  { sha256_hex := fun _ => "cc",
    parse_archive := fun _ => some ⟨0, "", [1]⟩,
    parse_archive_payload := fun _ => some ⟨"1", none, .daml_lf_1 [2]⟩,
    parse_lf1_package := fun _ => none,
    parse_lf2_package := fun _ => some 7,
    enforce_proto_limits_ok := fun _ => true,
    metadata_name := fun _ => "daml-prim",
    metadata_version := fun _ => "0.0.0" }

/-- Witness for C6: the fallback yields a v2 `2.1` package on a concrete
v1-labelled payload. -/
theorem decode_dalf_v1_fallback_witness :
    ∃ pkg, decode_dalf fallbackFns ⟨100, 100, 100⟩ ⟨"p.dalf", [9]⟩
        = .ok pkg
      ∧ pkg.lf_major = 2 ∧ pkg.lf_minor = 1 ∧ pkg.lf_version = "2.1"
      ∧ pkg.lf_package = 7 :=
  (decode_dalf_v1_fallback fallbackFns ⟨100, 100, 100⟩ ⟨"p.dalf", [9]⟩
      ⟨0, "", [1]⟩ ⟨"1", none, .daml_lf_1 [2]⟩ [2] ⟨1, 1, none⟩
      (by decide) rfl rfl (by decide) (by decide) (by decide) rfl rfl
      (by decide) (by decide) rfl rfl).2.2 7 rfl rfl rfl
